import Mathlib

/-!
Verification of the GlobeTrotter travel-planning backend's core logic:
the budget aggregator (GET /trips/{tripId}/budget handler) and the trip
duplicator (POST /trips/{id}/duplicate and POST /shared/{slug}/copy).

Monetary amounts are modelled as exact rationals (ℚ); JavaScript's
`Math.round` is modelled as `fun q => ⌊q + 1/2⌋` (round half toward +∞),
and `Number.prototype.toFixed(2)` as rounding the absolute value to the
nearest hundredth (ties away from zero in absolute value, per the
ECMAScript algorithm) and printing two fractional digits.
-/

namespace GlobeTrotter

/-- The fixed budget-category enumeration used by TripBudget rows. -/
inductive BudgetCategory where
  | TRANSPORT
  | ACCOMMODATION
  | FOOD
  | ACTIVITIES
  | SHOPPING
  | MISCELLANEOUS
deriving DecidableEq, Repr

/-- Trip status enumeration. -/
inductive TripStatus where
  | DRAFT
  | PLANNING
  | CONFIRMED
  | IN_PROGRESS
  | COMPLETED
  | CANCELLED
deriving DecidableEq, Repr

/-- The string a category renders as in template literals. -/
def categoryName : BudgetCategory → String
  | .TRANSPORT => "TRANSPORT"
  | .ACCOMMODATION => "ACCOMMODATION"
  | .FOOD => "FOOD"
  | .ACTIVITIES => "ACTIVITIES"
  | .SHOPPING => "SHOPPING"
  | .MISCELLANEOUS => "MISCELLANEOUS"

/-- JavaScript `Math.round`: nearest integer, ties toward +∞. -/
def jsRound (q : ℚ) : ℤ := ⌊q + 1/2⌋

/-- Modelled from the spec: "integer rounding, half-up" — nearest
integer, ties away from zero. On non-negative inputs it agrees with
`jsRound`. -/
def roundHalfUp (q : ℚ) : ℤ := if 0 ≤ q then ⌊q + 1/2⌋ else -⌊-q + 1/2⌋

/-- Print a natural number below 100 with exactly two digits. -/
def pad2 (k : ℕ) : String := if k < 10 then "0" ++ toString k else toString k

/-- JavaScript `x.toFixed(2)`: sign of `x`, then `|x|` rounded to the
nearest hundredth (ties picking the larger numerator) printed with two
fractional digits. -/
def toFixed2 (x : ℚ) : String :=
  let s := if x < 0 then "-" else ""
  let n := (⌊|x| * 100 + 1/2⌋).toNat
  s ++ toString (n / 100) ++ "." ++ pad2 (n % 100)

/-- A `tripBudget` row as read by the budget handler (the row id plays no
role in the aggregation and is omitted here). -/
structure TripBudget where
  category : BudgetCategory
  allocatedAmount : ℚ
  spentAmount : ℚ
deriving DecidableEq, Repr

/-- `budgets.reduce((sum, b) => sum + Number(b.allocatedAmount), 0)`. -/
def totalAllocated (budgets : List TripBudget) : ℚ :=
  budgets.foldl (fun sum b => sum + b.allocatedAmount) 0

/-- `budgets.reduce((sum, b) => sum + Number(b.spentAmount), 0)`. -/
def totalSpent (budgets : List TripBudget) : ℚ :=
  budgets.foldl (fun sum b => sum + b.spentAmount) 0

/-- The catalog activity joined onto an itinerary activity; only its
estimated cost is read by the handler. -/
structure CatalogActivity where
  estimatedCost : ℚ
deriving DecidableEq, Repr

/-- An `itineraryActivity` row with its included catalog `activity`.
`customCost` is a nullable numeric column; `none` models SQL NULL. -/
structure ItineraryActivity where
  customCost : Option ℚ
  activity : CatalogActivity
deriving DecidableEq, Repr

/-- `ia.customCost ? Number(ia.customCost) : Number(ia.activity.estimatedCost)`:
JavaScript truthiness on a nullable numeric value — both `null` and `0`
are falsy, so the catalog estimate is used in those cases. -/
def chosenCost (ia : ItineraryActivity) : ℚ :=
  match ia.customCost with
  | some c => if c ≠ 0 then c else ia.activity.estimatedCost
  | none => ia.activity.estimatedCost

/-- `itineraryActivities.reduce((sum, ia) => { const cost = ...; return sum + cost }, 0)`. -/
def activityCosts (acts : List ItineraryActivity) : ℚ :=
  acts.foldl (fun sum ia => sum + chosenCost ia) 0

/-- One element of the `breakdown` array built by the GET budget handler. -/
structure BreakdownEntry where
  category : BudgetCategory
  allocated : ℚ
  spent : ℚ
  percentage : ℤ
  isOverBudget : Bool
deriving DecidableEq, Repr

/-- `budgets.map((b) => ({ category, allocated, spent, percentage, isOverBudget }))`
with `percentage = totalAllocated > 0 ? Math.round(allocated / totalAllocated * 100) : 0`
and `isOverBudget = spent > allocated`. -/
def breakdown (budgets : List TripBudget) : List BreakdownEntry :=
  budgets.map (fun b =>
    { category := b.category
      allocated := b.allocatedAmount
      spent := b.spentAmount
      percentage :=
        if 0 < totalAllocated budgets then
          jsRound (b.allocatedAmount / totalAllocated budgets * 100)
        else 0
      isOverBudget := decide (b.spentAmount > b.allocatedAmount) })

/-- `breakdown.filter((b) => b.isOverBudget).map((b) => ...template literal...)`. -/
def overBudgetWarnings (budgets : List TripBudget) : List String :=
  ((breakdown budgets).filter (fun b => b.isOverBudget)).map
    (fun b => categoryName b.category ++ " is over budget by $" ++ toFixed2 (b.spent - b.allocated))

/-- The payload object returned by the GET budget handler. -/
structure BudgetSummary where
  totalBudget : Option ℚ
  totalAllocated : ℚ
  totalSpent : ℚ
  remaining : ℚ
  estimatedActivityCosts : ℚ
  breakdown : List BreakdownEntry
  overBudgetWarnings : List String
deriving DecidableEq, Repr

/-- The GET /trips/{tripId}/budget handler's computation after the
ownership check: assembles totals, activity costs, breakdown and
warnings. `totalBudget` reflects `trip.totalBudget ? Number(...) : null`
(truthiness: a 0 ceiling renders as null). -/
def getBudgetSummary (tripTotalBudget : Option ℚ) (budgets : List TripBudget)
    (acts : List ItineraryActivity) : BudgetSummary :=
  { totalBudget :=
      match tripTotalBudget with
      | some v => if v ≠ 0 then some v else none
      | none => none
    totalAllocated := totalAllocated budgets
    totalSpent := totalSpent budgets
    remaining := totalAllocated budgets - totalSpent budgets
    estimatedActivityCosts := activityCosts acts
    breakdown := breakdown budgets
    overBudgetWarnings := overBudgetWarnings budgets }

/-! ### Trip duplication

Source rows carry database identities (modelled as naturals); the create
payloads built by the two handlers carry none — the store generates fresh
identities on insert. -/

/-- A persisted `itineraryActivity` row (scheduled activity). -/
structure ScheduledActivityRow where
  id : ℕ
  activityId : ℕ
  startTime : String
  endTime : String
  customNotes : Option String
  customCost : Option ℚ
  orderIndex : ℕ
deriving DecidableEq, Repr

/-- A persisted `itinerary` row (itinerary day) with its activities. -/
structure ItineraryDayRow where
  id : ℕ
  cityId : ℕ
  dayNumber : ℕ
  date : ℤ
  notes : Option String
  orderIndex : ℕ
  activities : List ScheduledActivityRow
deriving DecidableEq, Repr

/-- A persisted `tripBudget` row including its identity. -/
structure BudgetRow where
  id : ℕ
  category : BudgetCategory
  allocatedAmount : ℚ
  spentAmount : ℚ
deriving DecidableEq, Repr

/-- A fully loaded trip aggregate as fetched with
`include: { itineraries: { include: { activities: true } }, budgets: true }`. -/
structure TripAggregate where
  id : ℕ
  userId : ℕ
  name : String
  description : Option String
  startDate : ℤ
  endDate : ℤ
  totalBudget : Option ℚ
  coverPhotoUrl : Option String
  status : TripStatus
  itineraries : List ItineraryDayRow
  budgets : List BudgetRow
deriving DecidableEq, Repr

/-- Nested create payload for one scheduled activity (no id). -/
structure ActivityCreate where
  activityId : ℕ
  startTime : String
  endTime : String
  customNotes : Option String
  customCost : Option ℚ
  orderIndex : ℕ
deriving DecidableEq, Repr

/-- Nested create payload for one itinerary day (no id). -/
structure DayCreate where
  cityId : ℕ
  dayNumber : ℕ
  date : ℤ
  notes : Option String
  orderIndex : ℕ
  activities : List ActivityCreate
deriving DecidableEq, Repr

/-- Nested create payload for one budget allocation (no id). -/
structure BudgetCreate where
  category : BudgetCategory
  allocatedAmount : ℚ
  spentAmount : ℚ
deriving DecidableEq, Repr

/-- The top-level `prisma.trip.create` data payload. -/
structure TripCreate where
  userId : ℕ
  name : String
  description : Option String
  startDate : ℤ
  endDate : ℤ
  totalBudget : Option ℚ
  coverPhotoUrl : Option String
  status : TripStatus
  itineraries : List DayCreate
  budgets : List BudgetCreate
deriving DecidableEq, Repr

/-- The create payload built by POST /trips/{id}/duplicate
(trips.routes.ts): name suffixed with " (Copy)", status forced to DRAFT,
days and activities copied field by field, budgets copied with
`spentAmount: 0`. -/
def duplicateTripData (original : TripAggregate) (userId : ℕ) : TripCreate :=
  { userId := userId
    name := original.name ++ " (Copy)"
    description := original.description
    startDate := original.startDate
    endDate := original.endDate
    totalBudget := original.totalBudget
    coverPhotoUrl := original.coverPhotoUrl
    status := .DRAFT
    itineraries := original.itineraries.map (fun it =>
      { cityId := it.cityId
        dayNumber := it.dayNumber
        date := it.date
        notes := it.notes
        orderIndex := it.orderIndex
        activities := it.activities.map (fun act =>
          { activityId := act.activityId
            startTime := act.startTime
            endTime := act.endTime
            customNotes := act.customNotes
            customCost := act.customCost
            orderIndex := act.orderIndex }) })
    budgets := original.budgets.map (fun b =>
      { category := b.category
        allocatedAmount := b.allocatedAmount
        spentAmount := 0 }) }

/-- The create payload built by POST /shared/{slug}/copy
(sharing.routes.ts) from `share.trip`: name suffixed with " (Copied)",
status forced to DRAFT, days, activities and budgets copied exactly as in
the duplicate handler. -/
def copySharedTripData (trip : TripAggregate) (userId : ℕ) : TripCreate :=
  { userId := userId
    name := trip.name ++ " (Copied)"
    description := trip.description
    startDate := trip.startDate
    endDate := trip.endDate
    totalBudget := trip.totalBudget
    coverPhotoUrl := trip.coverPhotoUrl
    status := .DRAFT
    itineraries := trip.itineraries.map (fun it =>
      { cityId := it.cityId
        dayNumber := it.dayNumber
        date := it.date
        notes := it.notes
        orderIndex := it.orderIndex
        activities := it.activities.map (fun act =>
          { activityId := act.activityId
            startTime := act.startTime
            endTime := act.endTime
            customNotes := act.customNotes
            customCost := act.customCost
            orderIndex := act.orderIndex }) })
    budgets := trip.budgets.map (fun b =>
      { category := b.category
        allocatedAmount := b.allocatedAmount
        spentAmount := 0 }) }

/-- Modelled from the spec: "New identities are generated for day and
activity-schedule rows" — the store (`prisma.trip.create`, not part of
this source tree) materializes a create payload by drawing fresh row ids
from a counter. Activities of one day, starting at counter `n`. -/
def materializeActs : List ActivityCreate → ℕ → List ScheduledActivityRow × ℕ
  | [], n => ([], n)
  | a :: rest, n =>
    let tail := materializeActs rest (n + 1)
    (({ id := n
        activityId := a.activityId
        startTime := a.startTime
        endTime := a.endTime
        customNotes := a.customNotes
        customCost := a.customCost
        orderIndex := a.orderIndex } : ScheduledActivityRow) :: tail.1, tail.2)

/-- Modelled from the spec: fresh identities for itinerary-day rows and,
nested, for their scheduled-activity rows. -/
def materializeDays : List DayCreate → ℕ → List ItineraryDayRow × ℕ
  | [], n => ([], n)
  | d :: rest, n =>
    let acts := materializeActs d.activities (n + 1)
    let tail := materializeDays rest acts.2
    (({ id := n
        cityId := d.cityId
        dayNumber := d.dayNumber
        date := d.date
        notes := d.notes
        orderIndex := d.orderIndex
        activities := acts.1 } : ItineraryDayRow) :: tail.1, tail.2)

/-- Modelled from the spec: fresh identities for budget-allocation rows. -/
def materializeBudgets : List BudgetCreate → ℕ → List BudgetRow × ℕ
  | [], n => ([], n)
  | b :: rest, n =>
    let tail := materializeBudgets rest (n + 1)
    (({ id := n
        category := b.category
        allocatedAmount := b.allocatedAmount
        spentAmount := b.spentAmount } : BudgetRow) :: tail.1, tail.2)

/-- Modelled from the spec: `prisma.trip.create` persists a payload as a
fresh aggregate, every generated row id being at least `base`. -/
def materializeTrip (d : TripCreate) (base : ℕ) : TripAggregate :=
  let days := materializeDays d.itineraries (base + 1)
  let buds := materializeBudgets d.budgets days.2
  { id := base
    userId := d.userId
    name := d.name
    description := d.description
    startDate := d.startDate
    endDate := d.endDate
    totalBudget := d.totalBudget
    coverPhotoUrl := d.coverPhotoUrl
    status := d.status
    itineraries := days.1
    budgets := buds.1 }

/-- The POST /trips/{id}/duplicate handler end to end: build the create
payload from the loaded source aggregate and persist it with fresh row
identities drawn from `base`. -/
def duplicatedTrip (src : TripAggregate) (userId : ℕ) (base : ℕ) : TripAggregate :=
  materializeTrip (duplicateTripData src userId) base

/-- The projection of a persisted scheduled-activity row back onto its
identity-free payload fields. -/
def stripAct (r : ScheduledActivityRow) : ActivityCreate :=
  { activityId := r.activityId
    startTime := r.startTime
    endTime := r.endTime
    customNotes := r.customNotes
    customCost := r.customCost
    orderIndex := r.orderIndex }

/-- The projection of a persisted day row back onto its identity-free
payload fields. -/
def stripDay (r : ItineraryDayRow) : DayCreate :=
  { cityId := r.cityId
    dayNumber := r.dayNumber
    date := r.date
    notes := r.notes
    orderIndex := r.orderIndex
    activities := r.activities.map stripAct }

/-- The projection of a persisted budget row back onto its identity-free
payload fields. -/
def stripBudget (r : BudgetRow) : BudgetCreate :=
  { category := r.category
    allocatedAmount := r.allocatedAmount
    spentAmount := r.spentAmount }

/-- All child-row identities of a trip aggregate: its day rows, their
scheduled-activity rows, and its budget rows. -/
def allRowIds (t : TripAggregate) : List ℕ :=
  t.itineraries.map (·.id) ++
    (t.itineraries.map (fun d => d.activities.map (·.id))).flatten ++
    t.budgets.map (·.id)

/-! ### Setting budget allocations (POST /trips/{tripId}/budget) -/

/-- One `prisma.tripBudget.upsert` keyed on `(tripId, category)`:
`update: { allocatedAmount: alloc.amount }` when a row for the category
exists, `create: { ..., allocatedAmount: alloc.amount, spentAmount: 0 }`
otherwise. The rows of one trip are the list; the upsert's row lookup is
by category. -/
def upsertBudget (rows : List TripBudget) (cat : BudgetCategory) (amount : ℚ) :
    List TripBudget :=
  if rows.any (fun b => decide (b.category = cat)) then
    rows.map (fun b =>
      if b.category = cat then { b with allocatedAmount := amount } else b)
  else
    rows ++ [{ category := cat, allocatedAmount := amount, spentAmount := 0 }]

/-- The POST budget handler applies one upsert per requested allocation
(`Promise.all` over pairwise-distinct categories, modelled sequentially). -/
def setBudgetAllocations (rows : List TripBudget) (allocs : List (BudgetCategory × ℚ)) :
    List TripBudget :=
  allocs.foldl (fun rs a => upsertBudget rs a.1 a.2) rows

/-- The row a trip holds for a category, if any. -/
def findCat (rows : List TripBudget) (cat : BudgetCategory) : Option TripBudget :=
  rows.find? (fun b => decide (b.category = cat))

/-! ### Concrete fixtures -/

/-- The spec's worked budget example. -/
def demoBudgets : List TripBudget :=
  [⟨.FOOD, 400, 500⟩, ⟨.TRANSPORT, 200, 100⟩]

/-- Four allocations of 1, 1, 1, 5: each exact percentage is a half-way
case, so every entry rounds up. -/
def fourCatBudgets : List TripBudget :=
  [⟨.FOOD, 1, 0⟩, ⟨.TRANSPORT, 1, 0⟩, ⟨.ACCOMMODATION, 1, 0⟩, ⟨.ACTIVITIES, 5, 0⟩]

/-- The spec's worked duplication example: two days (2 and 0 activities)
and one FOOD budget with recorded spend. -/
def demoTrip : TripAggregate :=
  { id := 1
    userId := 7
    name := "Japan"
    description := some "spring"
    startDate := 100
    endDate := 110
    totalBudget := some 3000
    coverPhotoUrl := none
    status := .COMPLETED
    itineraries :=
      [{ id := 2, cityId := 11, dayNumber := 1, date := 100, notes := none, orderIndex := 0,
         activities :=
           [{ id := 4, activityId := 21, startTime := "09:00", endTime := "11:00",
              customNotes := none, customCost := some 25, orderIndex := 0 },
            { id := 5, activityId := 22, startTime := "13:00", endTime := "15:00",
              customNotes := some "book ahead", customCost := none, orderIndex := 1 }] },
       { id := 3, cityId := 12, dayNumber := 2, date := 101, notes := some "rest",
         orderIndex := 1, activities := [] }]
    budgets := [{ id := 6, category := .FOOD, allocatedAmount := 300, spentAmount := 150 }] }

/-! ## Helper lemmas -/

-- A `reduce`-style left fold of additions equals the initial value plus
-- the sum of the mapped list.
theorem foldl_add_eq_sum {α : Type} (f : α → ℚ) :
    ∀ (l : List α) (i : ℚ), l.foldl (fun s b => s + f b) i = i + (l.map f).sum := by
  intro l
  induction l with
  | nil => simp
  | cons a t ih =>
    intro i
    simp only [List.foldl_cons, List.map_cons, List.sum_cons, ih]
    ring

theorem totalAllocated_eq_sum (l : List TripBudget) :
    totalAllocated l = (l.map (·.allocatedAmount)).sum := by
  simpa using foldl_add_eq_sum (·.allocatedAmount) l 0

theorem totalSpent_eq_sum (l : List TripBudget) :
    totalSpent l = (l.map (·.spentAmount)).sum := by
  simpa using foldl_add_eq_sum (·.spentAmount) l 0

/-- C3: `estimatedActivityCosts` is the sum over the scheduled activities
of the chosen cost: the custom cost when it is present, non-null and
non-zero, and the referenced catalog activity's `estimatedCost` otherwise
— in particular when `customCost` is absent or 0 the catalog estimate is
used, as the concrete instances show. -/
theorem activity_costs_c3 (acts : List ItineraryActivity) :
    activityCosts acts =
      (acts.map (fun ia =>
        match ia.customCost with
        | some c => if c ≠ 0 then c else ia.activity.estimatedCost
        | none => ia.activity.estimatedCost)).sum ∧
    activityCosts [⟨some 0, ⟨7⟩⟩] = 7 ∧
    activityCosts [⟨none, ⟨7⟩⟩] = 7 ∧
    activityCosts [⟨some 5, ⟨7⟩⟩] = 5 := by
  refine ⟨?_, ?_, ?_, ?_⟩
  · have h := foldl_add_eq_sum chosenCost acts 0
    rw [zero_add] at h
    exact h
  · norm_num [activityCosts, chosenCost]
  · norm_num [activityCosts, chosenCost]
  · norm_num [activityCosts, chosenCost]

/-- C4: the summary's `totalAllocated` and `totalSpent` are the exact
sums of the allocation rows' amounts, `remaining` is their difference
(not clamped), the breakdown has exactly one entry per input allocation
in input order, and on the empty allocations list every total is 0, the
breakdown is empty and there are no warnings regardless of the activity
costs. -/
theorem budget_totals_c4 (tb : Option ℚ) (budgets : List TripBudget)
    (acts : List ItineraryActivity) :
    (getBudgetSummary tb budgets acts).totalAllocated = (budgets.map (·.allocatedAmount)).sum ∧
    (getBudgetSummary tb budgets acts).totalSpent = (budgets.map (·.spentAmount)).sum ∧
    (getBudgetSummary tb budgets acts).remaining =
      (getBudgetSummary tb budgets acts).totalAllocated -
        (getBudgetSummary tb budgets acts).totalSpent ∧
    (getBudgetSummary tb budgets acts).breakdown.length = budgets.length ∧
    (getBudgetSummary tb budgets acts).breakdown.map (fun e => (e.category, e.allocated, e.spent)) =
      budgets.map (fun b => (b.category, b.allocatedAmount, b.spentAmount)) ∧
    (getBudgetSummary tb [] acts).totalAllocated = 0 ∧
    (getBudgetSummary tb [] acts).totalSpent = 0 ∧
    (getBudgetSummary tb [] acts).remaining = 0 ∧
    (getBudgetSummary tb [] acts).breakdown = [] ∧
    (getBudgetSummary tb [] acts).overBudgetWarnings = [] := by
  refine ⟨totalAllocated_eq_sum budgets, totalSpent_eq_sum budgets, rfl, ?_, ?_, rfl, rfl,
    by norm_num [getBudgetSummary, totalAllocated, totalSpent], ?_, ?_⟩
  · simp [getBudgetSummary, breakdown]
  · simp [getBudgetSummary, breakdown, List.map_map, Function.comp]
  · simp [getBudgetSummary, breakdown]
  · simp [getBudgetSummary, overBudgetWarnings, breakdown]

/-- C5: a breakdown entry's `isOverBudget` flag is true exactly when the
spent amount strictly exceeds the allocated amount; equality yields
`false`. -/
theorem over_budget_flag_c5 (budgets : List TripBudget) :
    ∀ e ∈ breakdown budgets,
      (e.isOverBudget = true ↔ e.allocated < e.spent) ∧
      (e.spent = e.allocated → e.isOverBudget = false) := by
  intro e he
  obtain ⟨b, _, rfl⟩ := List.mem_map.1 he
  constructor
  · simp
  · intro hEq
    simp only [decide_eq_false_iff_not]
    simp only [gt_iff_lt] at hEq ⊢
    rw [hEq]
    exact lt_irrefl _

/-- Witness for C5 at the spec's worked example: the FOOD entry (spent
500 against 400) has the flag set, consistently with 400 < 500. -/
theorem over_budget_flag_c5_witness :
    (⟨.FOOD, 400, 500, 67, true⟩ : BreakdownEntry).isOverBudget = true ↔
      ((400 : ℚ) < 500) := by
  have hb : breakdown demoBudgets =
      [⟨.FOOD, 400, 500, 67, true⟩, ⟨.TRANSPORT, 200, 100, 33, false⟩] := by
    norm_num [breakdown, demoBudgets, totalAllocated, jsRound]
  have hmem : (⟨.FOOD, 400, 500, 67, true⟩ : BreakdownEntry) ∈ breakdown demoBudgets := by
    rw [hb]; exact List.mem_cons_self _ _
  exact (over_budget_flag_c5 demoBudgets _ hmem).1

/-- C1: every breakdown entry's percentage is the allocated share of the
total, times 100, rounded half-up, when the total allocation is positive,
and 0 when the total is 0 (the division is guarded); an entry with
allocated amount 0 always gets percentage 0. -/
theorem breakdown_percentage_c1 (budgets : List TripBudget)
    (hnn : ∀ b ∈ budgets, 0 ≤ b.allocatedAmount) :
    ∀ e ∈ breakdown budgets,
      (e.percentage =
        if 0 < totalAllocated budgets then
          roundHalfUp (e.allocated / totalAllocated budgets * 100)
        else 0) ∧
      (e.allocated = 0 → e.percentage = 0) := by
  intro e he
  obtain ⟨b, hb, rfl⟩ := List.mem_map.1 he
  by_cases hpos : 0 < totalAllocated budgets
  · have hq : (0 : ℚ) ≤ b.allocatedAmount / totalAllocated budgets * 100 :=
      mul_nonneg (div_nonneg (hnn b hb) hpos.le) (by norm_num)
    constructor
    · simp only [if_pos hpos, roundHalfUp, if_pos hq]
      rfl
    · intro h0
      have h0' : b.allocatedAmount = 0 := h0
      simp only [if_pos hpos, jsRound, h0', zero_div, zero_mul, zero_add]
      norm_num
  · constructor
    · simp [if_neg hpos]
    · intro _
      simp [if_neg hpos]

/-- Witness for C1 at the spec's worked example: the FOOD entry of the
400/200 allocation pair has percentage 67 = roundHalfUp(400/600·100). -/
theorem breakdown_percentage_c1_witness :
    (⟨.FOOD, 400, 500, 67, true⟩ : BreakdownEntry).percentage =
      (if 0 < totalAllocated demoBudgets then
        roundHalfUp ((⟨.FOOD, 400, 500, 67, true⟩ : BreakdownEntry).allocated /
          totalAllocated demoBudgets * 100)
      else 0) := by
  have hb : breakdown demoBudgets =
      [⟨.FOOD, 400, 500, 67, true⟩, ⟨.TRANSPORT, 200, 100, 33, false⟩] := by
    norm_num [breakdown, demoBudgets, totalAllocated, jsRound]
  have hmem : (⟨.FOOD, 400, 500, 67, true⟩ : BreakdownEntry) ∈ breakdown demoBudgets := by
    rw [hb]; exact List.mem_cons_self _ _
  have hnn : ∀ b ∈ demoBudgets, (0 : ℚ) ≤ b.allocatedAmount := by
    intro b hb'
    simp only [demoBudgets, List.mem_cons, List.mem_singleton] at hb'
    rcases hb' with rfl | rfl | h
    · norm_num
    · norm_num
    · simp at h
  exact (breakdown_percentage_c1 demoBudgets hnn _ hmem).1

-- Filtering a mapped list by a predicate that factors through the map,
-- then mapping again, is a filter-then-map over the original list.
theorem map_filter_map {α β γ : Type} (f : α → β) (p : β → Bool) (q : α → Bool) (g : β → γ)
    (hpq : ∀ a, p (f a) = q a) :
    ∀ l : List α, ((l.map f).filter p).map g = (l.filter q).map (g ∘ f) := by
  intro l
  induction l with
  | nil => rfl
  | cons a t ih =>
    simp only [List.map_cons, List.filter_cons, hpq a]
    cases q a <;> simp [ih]

/-- C6: the warning list is exactly one formatted string per over-budget
allocation, in input order, reading
"{category} is over budget by ${spent − allocated, two decimals}";
at the spec's worked example this is ["FOOD is over budget by $100.00"]. -/
theorem over_budget_warnings_c6 (budgets : List TripBudget) :
    overBudgetWarnings budgets =
      (budgets.filter (fun b => decide (b.allocatedAmount < b.spentAmount))).map
        (fun b => categoryName b.category ++ " is over budget by $" ++
          toFixed2 (b.spentAmount - b.allocatedAmount)) ∧
    overBudgetWarnings demoBudgets = ["FOOD is over budget by $100.00"] := by
  constructor
  · exact map_filter_map
      (fun b : TripBudget =>
        ({ category := b.category
           allocated := b.allocatedAmount
           spent := b.spentAmount
           percentage :=
             if 0 < totalAllocated budgets then
               jsRound (b.allocatedAmount / totalAllocated budgets * 100)
             else 0
           isOverBudget := decide (b.spentAmount > b.allocatedAmount) } : BreakdownEntry))
      (fun e => e.isOverBudget)
      (fun b => decide (b.allocatedAmount < b.spentAmount))
      (fun e => categoryName e.category ++ " is over budget by $" ++ toFixed2 (e.spent - e.allocated))
      (fun _ => rfl)
      budgets
  · norm_num [overBudgetWarnings, breakdown, demoBudgets, totalAllocated, jsRound,
      toFixed2, pad2, categoryName]
    decide

-- `Math.round` is within a half of its argument.
theorem jsRound_le (q : ℚ) : (jsRound q : ℚ) ≤ q + 1/2 :=
  Int.floor_le _

theorem le_jsRound (q : ℚ) : q - 1/2 ≤ (jsRound q : ℚ) := by
  have h := Int.lt_floor_add_one (q + 1/2)
  have : ((jsRound q : ℤ) : ℚ) = ((⌊q + 1/2⌋ : ℤ) : ℚ) := rfl
  rw [this]
  linarith

-- Summing the rounded values of a list stays within half the list's
-- length of the exact sum.
theorem sum_map_jsRound_le (l : List ℚ) :
    (((l.map jsRound).sum : ℤ) : ℚ) ≤ l.sum + l.length / 2 := by
  induction l with
  | nil => simp
  | cons a t ih =>
    have ha := jsRound_le a
    simp only [List.map_cons, List.sum_cons, List.length_cons]
    push_cast
    push_cast at ih
    linarith

theorem le_sum_map_jsRound (l : List ℚ) :
    l.sum - l.length / 2 ≤ (((l.map jsRound).sum : ℤ) : ℚ) := by
  induction l with
  | nil => simp
  | cons a t ih =>
    have ha := le_jsRound a
    simp only [List.map_cons, List.sum_cons, List.length_cons]
    push_cast
    push_cast at ih
    linarith

-- Distributing a common divide-and-scale over a list sum.
theorem sum_map_div_mul (T : ℚ) :
    ∀ l : List ℚ, (l.map (fun a => a / T * 100)).sum = l.sum / T * 100 := by
  intro l
  induction l with
  | nil => simp
  | cons a t ih =>
    simp only [List.map_cons, List.sum_cons, ih]
    ring

/-- C2 (amended): with positive total allocation, the breakdown
percentages sum to exactly 100 for a single allocation, and to a value in
[99, 101] for exactly two or three allocations. (For four or more
allocations the sum can leave [99, 101]; see the counterexample.) -/
theorem percentage_sum_c2 (budgets : List TripBudget)
    (hpos : 0 < totalAllocated budgets) :
    (budgets.length = 1 → ((breakdown budgets).map (·.percentage)).sum = 100) ∧
    ((budgets.length = 2 ∨ budgets.length = 3) →
      99 ≤ ((breakdown budgets).map (·.percentage)).sum ∧
        ((breakdown budgets).map (·.percentage)).sum ≤ 101) := by
  have hmap : (breakdown budgets).map (·.percentage) =
      ((budgets.map (·.allocatedAmount)).map (fun a => a / totalAllocated budgets * 100)).map
        jsRound := by
    simp only [breakdown, List.map_map]
    refine List.map_congr_left ?_
    intro b _
    simp [Function.comp, if_pos hpos]
  set l : List ℚ :=
    (budgets.map (·.allocatedAmount)).map (fun a => a / totalAllocated budgets * 100) with hl
  have hlen : l.length = budgets.length := by
    simp [hl]
  have hsum : l.sum = 100 := by
    rw [hl, sum_map_div_mul, ← totalAllocated_eq_sum, div_self (ne_of_gt hpos)]
    norm_num
  have hup : (((l.map jsRound).sum : ℤ) : ℚ) ≤ 100 + l.length / 2 := by
    have := sum_map_jsRound_le l
    rw [hsum] at this
    exact this
  have hlow : 100 - (l.length : ℚ) / 2 ≤ (((l.map jsRound).sum : ℤ) : ℚ) := by
    have := le_sum_map_jsRound l
    rw [hsum] at this
    exact this
  rw [hmap]
  constructor
  · intro h1
    rw [hlen] at hup hlow
    rw [h1] at hup hlow
    have hA : ((l.map jsRound).sum : ℚ) < 101 := by
      push_cast at hup ⊢
      linarith
    have hB : (99 : ℚ) < ((l.map jsRound).sum : ℚ) := by
      push_cast at hlow ⊢
      linarith
    have hA' : (l.map jsRound).sum < 101 := by exact_mod_cast hA
    have hB' : 99 < (l.map jsRound).sum := by exact_mod_cast hB
    omega
  · intro h23
    rw [hlen] at hup hlow
    rcases h23 with h2 | h3
    · rw [h2] at hup hlow
      have hA : ((l.map jsRound).sum : ℚ) ≤ 101 := by
        push_cast at hup ⊢
        linarith
      have hB : (99 : ℚ) ≤ ((l.map jsRound).sum : ℚ) := by
        push_cast at hlow ⊢
        linarith
      constructor
      · exact_mod_cast hB
      · exact_mod_cast hA
    · rw [h3] at hup hlow
      have hA : ((l.map jsRound).sum : ℚ) < 102 := by
        push_cast at hup ⊢
        linarith
      have hB : (98 : ℚ) < ((l.map jsRound).sum : ℚ) := by
        push_cast at hlow ⊢
        linarith
      have hA' : (l.map jsRound).sum < 102 := by exact_mod_cast hA
      have hB' : 98 < (l.map jsRound).sum := by exact_mod_cast hB
      omega

/-- Witness for C2 at the spec's worked example (two allocations 400 and
200): the percentage sum 67 + 33 lies in [99, 101]. -/
theorem percentage_sum_c2_witness :
    0 < totalAllocated demoBudgets ∧
    99 ≤ ((breakdown demoBudgets).map (·.percentage)).sum ∧
    ((breakdown demoBudgets).map (·.percentage)).sum ≤ 101 := by
  have hpos : 0 < totalAllocated demoBudgets := by
    norm_num [demoBudgets, totalAllocated]
  refine ⟨hpos, ?_⟩
  exact (percentage_sum_c2 demoBudgets hpos).2 (Or.inl (by norm_num [demoBudgets]))

/-- Counterexample to C2 as stated: four allocations 1, 1, 1, 5 have
positive total allocation and at least two categories, yet every exact
percentage (12.5, 12.5, 12.5, 62.5) is a half-way case rounding up, so
the percentages sum to 102 ∉ [99, 101]. -/
theorem percentage_sum_c2_counterexample :
    0 < totalAllocated fourCatBudgets ∧
    2 ≤ fourCatBudgets.length ∧
    ((breakdown fourCatBudgets).map (·.percentage)).sum = 102 ∧
    ¬(99 ≤ ((breakdown fourCatBudgets).map (·.percentage)).sum ∧
      ((breakdown fourCatBudgets).map (·.percentage)).sum ≤ 101) := by
  have h : ((breakdown fourCatBudgets).map (·.percentage)).sum = 102 := by
    norm_num [breakdown, fourCatBudgets, totalAllocated, jsRound]
  refine ⟨by norm_num [fourCatBudgets, totalAllocated], by norm_num [fourCatBudgets], h, ?_⟩
  rw [h]
  norm_num

-- Materializing budget-create payloads preserves their payload fields.
theorem materializeBudgets_strip :
    ∀ (l : List BudgetCreate) (n : ℕ), ((materializeBudgets l n).1).map stripBudget = l := by
  intro l
  induction l with
  | nil => intro n; rfl
  | cons b t ih =>
    intro n
    simp [materializeBudgets, stripBudget, ih]

/-- C7: a duplicated trip (either call site, any fresh-id base) has
status DRAFT regardless of the source's status, and its budget rows carry
exactly the source's categories and allocated amounts, each with spent
amount reset to 0 — even when the source spend was non-zero. -/
theorem duplicate_status_spend_c7 (src : TripAggregate) (u₁ u₂ base : ℕ) :
    (materializeTrip (duplicateTripData src u₁) base).status = .DRAFT ∧
    (materializeTrip (copySharedTripData src u₂) base).status = .DRAFT ∧
    (materializeTrip (duplicateTripData src u₁) base).budgets.map
        (fun r => (r.category, r.allocatedAmount, r.spentAmount)) =
      src.budgets.map (fun b => (b.category, b.allocatedAmount, (0 : ℚ))) ∧
    (materializeTrip (copySharedTripData src u₂) base).budgets.map
        (fun r => (r.category, r.allocatedAmount, r.spentAmount)) =
      src.budgets.map (fun b => (b.category, b.allocatedAmount, (0 : ℚ))) := by
  refine ⟨rfl, rfl, ?_, ?_⟩
  · have h := materializeBudgets_strip (duplicateTripData src u₁).budgets
      ((materializeDays (duplicateTripData src u₁).itineraries (base + 1)).2)
    have h2 := congrArg (List.map (fun c : BudgetCreate =>
      (c.category, c.allocatedAmount, c.spentAmount))) h
    simp only [List.map_map] at h2
    simpa [materializeTrip, duplicateTripData, stripBudget, Function.comp,
      List.map_map] using h2
  · have h := materializeBudgets_strip (copySharedTripData src u₂).budgets
      ((materializeDays (copySharedTripData src u₂).itineraries (base + 1)).2)
    have h2 := congrArg (List.map (fun c : BudgetCreate =>
      (c.category, c.allocatedAmount, c.spentAmount))) h
    simp only [List.map_map] at h2
    simpa [materializeTrip, copySharedTripData, stripBudget, Function.comp,
      List.map_map] using h2

/-- C9: from the same source aggregate the two duplication call sites
build create payloads that agree on every field except the owner and the
name: the owner-duplicate handler appends " (Copy)" to the source name,
the shared-copy handler appends " (Copied)". -/
theorem duplicate_call_sites_c9 (src : TripAggregate) (u₁ u₂ : ℕ) :
    (duplicateTripData src u₁).name = src.name ++ " (Copy)" ∧
    (copySharedTripData src u₂).name = src.name ++ " (Copied)" ∧
    (duplicateTripData src u₁).userId = u₁ ∧
    (copySharedTripData src u₂).userId = u₂ ∧
    copySharedTripData src u₂ =
      { duplicateTripData src u₁ with
          userId := u₂
          name := src.name ++ " (Copied)" } := by
  refine ⟨rfl, rfl, rfl, rfl, ?_⟩
  simp [duplicateTripData, copySharedTripData]

-- Materializing activity-create payloads preserves their payload fields.
theorem materializeActs_strip :
    ∀ (l : List ActivityCreate) (n : ℕ), ((materializeActs l n).1).map stripAct = l := by
  intro l
  induction l with
  | nil => intro n; rfl
  | cons a t ih =>
    intro n
    simp [materializeActs, stripAct, ih]

-- Materializing day-create payloads preserves their payload fields,
-- including the nested activities.
theorem materializeDays_strip :
    ∀ (l : List DayCreate) (n : ℕ), ((materializeDays l n).1).map stripDay = l := by
  intro l
  induction l with
  | nil => intro n; rfl
  | cons d t ih =>
    intro n
    simp [materializeDays, stripDay, ih, materializeActs_strip]

-- The id counter never decreases while materializing.
theorem materializeActs_counter_le :
    ∀ (l : List ActivityCreate) (n : ℕ), n ≤ (materializeActs l n).2 := by
  intro l
  induction l with
  | nil => intro n; exact le_refl n
  | cons a t ih =>
    intro n
    calc n ≤ n + 1 := Nat.le_succ n
    _ ≤ (materializeActs t (n + 1)).2 := ih (n + 1)

theorem materializeDays_counter_le :
    ∀ (l : List DayCreate) (n : ℕ), n ≤ (materializeDays l n).2 := by
  intro l
  induction l with
  | nil => intro n; exact le_refl n
  | cons d t ih =>
    intro n
    calc n ≤ n + 1 := Nat.le_succ n
    _ ≤ (materializeActs d.activities (n + 1)).2 := materializeActs_counter_le _ _
    _ ≤ (materializeDays t (materializeActs d.activities (n + 1)).2).2 := ih _

-- Every materialized row id is at least the starting counter.
theorem materializeActs_id_ge :
    ∀ (l : List ActivityCreate) (n : ℕ), ∀ r ∈ (materializeActs l n).1, n ≤ r.id := by
  intro l
  induction l with
  | nil => intro n r hr; simp [materializeActs] at hr
  | cons a t ih =>
    intro n r hr
    simp only [materializeActs, List.mem_cons] at hr
    rcases hr with rfl | hr
    · exact le_refl n
    · exact le_trans (Nat.le_succ n) (ih (n + 1) r hr)

theorem materializeDays_id_ge :
    ∀ (l : List DayCreate) (n : ℕ), ∀ d ∈ (materializeDays l n).1,
      n ≤ d.id ∧ ∀ r ∈ d.activities, n ≤ r.id := by
  intro l
  induction l with
  | nil => intro n d hd; simp [materializeDays] at hd
  | cons c t ih =>
    intro n d hd
    simp only [materializeDays, List.mem_cons] at hd
    rcases hd with rfl | hd
    · refine ⟨le_refl n, ?_⟩
      intro r hr
      exact le_trans (Nat.le_succ n) (materializeActs_id_ge _ _ r hr)
    · have hctr : n ≤ (materializeActs c.activities (n + 1)).2 :=
        le_trans (Nat.le_succ n) (materializeActs_counter_le _ _)
      have h := ih _ d hd
      exact ⟨le_trans hctr h.1, fun r hr => le_trans hctr (h.2 r hr)⟩

theorem materializeBudgets_id_ge :
    ∀ (l : List BudgetCreate) (n : ℕ), ∀ r ∈ (materializeBudgets l n).1, n ≤ r.id := by
  intro l
  induction l with
  | nil => intro n r hr; simp [materializeBudgets] at hr
  | cons b t ih =>
    intro n r hr
    simp only [materializeBudgets, List.mem_cons] at hr
    rcases hr with rfl | hr
    · exact le_refl n
    · exact le_trans (Nat.le_succ n) (ih (n + 1) r hr)

-- Every child-row id of a materialized trip exceeds the base id.
theorem materializeTrip_rowIds_ge (d : TripCreate) (base : ℕ) :
    ∀ i ∈ allRowIds (materializeTrip d base), base + 1 ≤ i := by
  intro i hi
  simp only [allRowIds, materializeTrip, List.mem_append] at hi
  rcases hi with (hdays | hacts) | hbuds
  · obtain ⟨day, hday, rfl⟩ := List.mem_map.1 hdays
    exact (materializeDays_id_ge _ _ day hday).1
  · rw [List.mem_flatten] at hacts
    obtain ⟨L, hL, hiL⟩ := hacts
    obtain ⟨day, hday, rfl⟩ := List.mem_map.1 hL
    obtain ⟨r, hr, rfl⟩ := List.mem_map.1 hiL
    exact (materializeDays_id_ge _ _ day hday).2 r hr
  · obtain ⟨r, hr, rfl⟩ := List.mem_map.1 hbuds
    have h1 := materializeBudgets_id_ge _ _ r hr
    have h2 := materializeDays_counter_le d.itineraries (base + 1)
    exact le_trans h2 h1

/-- C8: the duplicate of a source trip with N days and M scheduled
activities has exactly N days and M activities; day numbers, order
indices (at both levels), city, date and notes per day, and every
activity payload field (activityId, startTime, endTime, customNotes,
customCost, orderIndex) are preserved in order; and when the store's
fresh-id base exceeds every source row id, no day, activity or allocation
row identity is shared between source and copy. -/
theorem duplicate_structure_c8 (src : TripAggregate) (u base : ℕ)
    (hfresh : ∀ i ∈ allRowIds src, i < base) :
    (duplicatedTrip src u base).itineraries.length = src.itineraries.length ∧
    ((duplicatedTrip src u base).itineraries.map (fun d => d.activities.length)).sum =
      (src.itineraries.map (fun d => d.activities.length)).sum ∧
    (duplicatedTrip src u base).itineraries.map (·.dayNumber) =
      src.itineraries.map (·.dayNumber) ∧
    (duplicatedTrip src u base).itineraries.map (·.orderIndex) =
      src.itineraries.map (·.orderIndex) ∧
    (duplicatedTrip src u base).itineraries.map (fun d => (d.cityId, d.date, d.notes)) =
      src.itineraries.map (fun d => (d.cityId, d.date, d.notes)) ∧
    (duplicatedTrip src u base).itineraries.map (fun d => d.activities.map stripAct) =
      src.itineraries.map (fun d => d.activities.map stripAct) ∧
    ∀ i ∈ allRowIds (duplicatedTrip src u base), i ∉ allRowIds src := by
  have hstrip : (duplicatedTrip src u base).itineraries.map stripDay =
      (duplicateTripData src u).itineraries :=
    materializeDays_strip (duplicateTripData src u).itineraries (base + 1)
  refine ⟨?_, ?_, ?_, ?_, ?_, ?_, ?_⟩
  · have h := congrArg List.length hstrip
    simpa [duplicateTripData, List.length_map] using h
  · have h := congrArg (List.map (fun dc : DayCreate => dc.activities.length)) hstrip
    simp only [List.map_map] at h
    have h2 := congrArg List.sum h
    simpa [duplicateTripData, stripDay, Function.comp_def, List.map_map,
      List.length_map] using h2
  · have h := congrArg (List.map DayCreate.dayNumber) hstrip
    simp only [List.map_map] at h
    simpa [duplicateTripData, stripDay, Function.comp_def, List.map_map] using h
  · have h := congrArg (List.map DayCreate.orderIndex) hstrip
    simp only [List.map_map] at h
    simpa [duplicateTripData, stripDay, Function.comp_def, List.map_map] using h
  · have h := congrArg (List.map (fun dc : DayCreate => (dc.cityId, dc.date, dc.notes))) hstrip
    simp only [List.map_map] at h
    simpa [duplicateTripData, stripDay, Function.comp_def, List.map_map] using h
  · have h := congrArg (List.map DayCreate.activities) hstrip
    simp only [List.map_map] at h
    simpa [duplicateTripData, stripDay, stripAct, Function.comp_def, List.map_map] using h
  · intro i hi hmem
    have h1 : base + 1 ≤ i := materializeTrip_rowIds_ge (duplicateTripData src u) base i hi
    have h2 : i < base := hfresh i hmem
    omega

/-- Witness for C8 at the spec's worked duplication example: the copy of
the two-day demo trip (fresh ids from 100) preserves the day numbers
[1, 2], and its first copied day row's id (101) is not a row id of the
source. -/
theorem duplicate_structure_c8_witness :
    (duplicatedTrip demoTrip 7 100).itineraries.map (·.dayNumber) =
      demoTrip.itineraries.map (·.dayNumber) ∧
    101 ∈ allRowIds (duplicatedTrip demoTrip 7 100) ∧
    101 ∉ allRowIds demoTrip := by
  have h := duplicate_structure_c8 demoTrip 7 100 (by decide)
  have hmem : 101 ∈ allRowIds (duplicatedTrip demoTrip 7 100) := by decide
  exact ⟨h.2.2.1, hmem, h.2.2.2.2.2.2 101 hmem⟩

-- `find?` over an append continues into the second list only when the
-- first has no match.
theorem find?_append {α : Type} (p : α → Bool) :
    ∀ l₁ l₂ : List α,
      (l₁ ++ l₂).find? p = match l₁.find? p with
        | some b => some b
        | none => l₂.find? p := by
  intro l₁ l₂
  induction l₁ with
  | nil => simp
  | cons a t ih =>
    cases h : p a with
    | true => simp [List.find?_cons, h]
    | false => simp [List.find?_cons, h, ih]

-- `find?` through a map whose function leaves the tested predicate
-- unchanged.
theorem find?_map_pred {α : Type} (p : α → Bool) (g : α → α)
    (hpg : ∀ a, p (g a) = p a) :
    ∀ l : List α, (l.map g).find? p = (l.find? p).map g := by
  intro l
  induction l with
  | nil => rfl
  | cons a t ih =>
    cases h : p a with
    | true => simp [List.find?_cons, hpg a, h]
    | false => simp [List.find?_cons, hpg a, h, ih]

-- An upsert leaves the category multiset's distinctness intact.
theorem upsertBudget_nodup (rows : List TripBudget) (cat : BudgetCategory) (amt : ℚ)
    (h : (rows.map (·.category)).Nodup) :
    ((upsertBudget rows cat amt).map (·.category)).Nodup := by
  unfold upsertBudget
  by_cases hany : rows.any (fun b => decide (b.category = cat)) = true
  · rw [if_pos hany]
    have heq : (rows.map (fun b =>
        if b.category = cat then { b with allocatedAmount := amt } else b)).map (·.category) =
        rows.map (·.category) := by
      rw [List.map_map]
      refine List.map_congr_left ?_
      intro b _
      by_cases hb : b.category = cat <;> simp [hb]
    rw [heq]
    exact h
  · rw [if_neg hany]
    have hnot : cat ∉ rows.map (·.category) := by
      intro hmem
      obtain ⟨b, hb, hbc⟩ := List.mem_map.1 hmem
      exact hany (List.any_eq_true.2 ⟨b, hb, by simp [hbc]⟩)
    simp only [List.map_append, List.map_cons, List.map_nil]
    exact List.Nodup.append h (List.nodup_singleton cat)
      (by simpa [List.disjoint_singleton] using hnot)

-- The category test is blind to an allocated-amount update.
theorem upsert_pred_compat (cat : BudgetCategory) (amt : ℚ) (c : BudgetCategory) :
    ∀ a : TripBudget,
      (decide ((if a.category = cat then { a with allocatedAmount := amt } else a).category = c)) =
        decide (a.category = c) := by
  intro a
  by_cases ha : a.category = cat <;> simp [ha]

-- Looking up the upserted category when a row for it already existed:
-- the row keeps its spent amount and takes the new allocated amount.
theorem findCat_upsert_found (rows : List TripBudget) (cat : BudgetCategory) (amt : ℚ)
    (b : TripBudget) (hb : findCat rows cat = some b) :
    findCat (upsertBudget rows cat amt) cat = some { b with allocatedAmount := amt } := by
  have hmem : b ∈ rows := List.mem_of_find?_eq_some hb
  have hpb := List.find?_some hb
  have hany : rows.any (fun x => decide (x.category = cat)) = true :=
    List.any_eq_true.2 ⟨b, hmem, hpb⟩
  unfold findCat at hb ⊢
  unfold upsertBudget
  rw [if_pos hany, find?_map_pred _ _ (upsert_pred_compat cat amt cat), hb]
  have hbc : b.category = cat := by simpa using hpb
  simp [hbc]

-- Looking up the upserted category when no row for it existed: a fresh
-- row with spent amount 0 is appended.
theorem findCat_upsert_missing (rows : List TripBudget) (cat : BudgetCategory) (amt : ℚ)
    (hb : findCat rows cat = none) :
    findCat (upsertBudget rows cat amt) cat =
      some { category := cat, allocatedAmount := amt, spentAmount := 0 } := by
  have hany : rows.any (fun x => decide (x.category = cat)) = false := by
    rw [Bool.eq_false_iff]
    intro htrue
    obtain ⟨x, hx, hpx⟩ := List.any_eq_true.1 htrue
    exact (List.find?_eq_none.1 hb x hx) hpx
  unfold findCat at hb ⊢
  unfold upsertBudget
  rw [if_neg (by simp [hany]), find?_append _ _ _, hb]
  simp

-- An upsert does not touch rows of other categories.
theorem findCat_upsert_other (rows : List TripBudget) (cat : BudgetCategory) (amt : ℚ)
    (c : BudgetCategory) (hne : c ≠ cat) :
    findCat (upsertBudget rows cat amt) c = findCat rows c := by
  unfold upsertBudget findCat
  by_cases hany : rows.any (fun b => decide (b.category = cat)) = true
  · rw [if_pos hany]
    rw [find?_map_pred _ _ (upsert_pred_compat cat amt c)]
    cases hfind : rows.find? (fun b => decide (b.category = c)) with
    | none => rfl
    | some b =>
      have hbc : b.category = c := by
        have := List.find?_some hfind
        simpa using this
      have : ¬ b.category = cat := by
        rw [hbc]
        exact hne
      simp [this]
  · rw [if_neg hany]
    rw [find?_append _ _ _]
    cases hfind : rows.find? (fun b => decide (b.category = c)) with
    | none => simp [Ne.symm hne]
    | some b => rfl

-- Applying a batch of upserts whose categories avoid `c` leaves the row
-- for `c` unchanged.
theorem setBudget_frame :
    ∀ (allocs : List (BudgetCategory × ℚ)) (rows : List TripBudget) (c : BudgetCategory),
      c ∉ allocs.map Prod.fst →
      findCat (setBudgetAllocations rows allocs) c = findCat rows c := by
  intro allocs
  induction allocs with
  | nil => intro rows c _; rfl
  | cons a t ih =>
    intro rows c hc
    simp only [List.map_cons, List.mem_cons] at hc
    push_neg at hc
    have h1 : findCat (setBudgetAllocations (upsertBudget rows a.1 a.2) t) c =
        findCat (upsertBudget rows a.1 a.2) c := ih _ c hc.2
    have h2 : findCat (upsertBudget rows a.1 a.2) c = findCat rows c :=
      findCat_upsert_other rows a.1 a.2 c hc.1
    calc findCat (setBudgetAllocations rows (a :: t)) c
        = findCat (setBudgetAllocations (upsertBudget rows a.1 a.2) t) c := rfl
      _ = findCat rows c := h1.trans h2

-- A batch of upserts keeps categories pairwise distinct.
theorem setBudget_nodup :
    ∀ (allocs : List (BudgetCategory × ℚ)) (rows : List TripBudget),
      (rows.map (·.category)).Nodup →
      ((setBudgetAllocations rows allocs).map (·.category)).Nodup := by
  intro allocs
  induction allocs with
  | nil => intro rows h; exact h
  | cons a t ih =>
    intro rows h
    exact ih _ (upsertBudget_nodup rows a.1 a.2 h)

-- Looking up any requested category after the whole batch.
theorem setBudget_lookup :
    ∀ (allocs : List (BudgetCategory × ℚ)) (rows : List TripBudget),
      (allocs.map Prod.fst).Nodup →
      ∀ ca ∈ allocs,
        (∀ b, findCat rows ca.1 = some b →
          findCat (setBudgetAllocations rows allocs) ca.1 =
            some { category := ca.1, allocatedAmount := ca.2, spentAmount := b.spentAmount }) ∧
        (findCat rows ca.1 = none →
          findCat (setBudgetAllocations rows allocs) ca.1 =
            some { category := ca.1, allocatedAmount := ca.2, spentAmount := 0 }) := by
  intro allocs
  induction allocs with
  | nil => intro rows _ ca hca; exact absurd hca (List.not_mem_nil ca)
  | cons a t ih =>
    intro rows hnd ca hca
    rw [List.map_cons] at hnd
    have hhead : a.1 ∉ t.map Prod.fst := (List.nodup_cons.1 hnd).1
    have htail : (t.map Prod.fst).Nodup := (List.nodup_cons.1 hnd).2
    rcases List.mem_cons.1 hca with rfl | hca'
    · have hframe := setBudget_frame t (upsertBudget rows ca.1 ca.2) ca.1 hhead
      constructor
      · intro b hb
        have hbc : b.category = ca.1 := by
          have := List.find?_some hb
          simpa using this
        have hstep := findCat_upsert_found rows ca.1 ca.2 b hb
        show findCat (setBudgetAllocations (upsertBudget rows ca.1 ca.2) t) ca.1 = _
        rw [hframe, hstep, hbc]
      · intro hb
        have hstep := findCat_upsert_missing rows ca.1 ca.2 hb
        show findCat (setBudgetAllocations (upsertBudget rows ca.1 ca.2) t) ca.1 = _
        rw [hframe, hstep]
    · have hne : ca.1 ≠ a.1 := by
        intro hEq
        apply hhead
        rw [← hEq]
        exact List.mem_map.2 ⟨ca, hca', rfl⟩
      have htrans := findCat_upsert_other rows a.1 a.2 ca.1 hne
      have := ih (upsertBudget rows a.1 a.2) htail ca hca'
      constructor
      · intro b hb
        exact this.1 b (htrans.trans hb)
      · intro hb
        exact this.2 (htrans.trans hb)

/-- C10: setting budget allocations upserts per category — a category
with an existing row gets its allocated amount overwritten while its
spent amount is untouched, a category without one gets a fresh row with
the given allocated amount and spent 0; rows for categories not in the
request are unchanged, and the at-most-one-row-per-category invariant is
preserved. -/
theorem set_budget_upsert_c10 (rows : List TripBudget) (allocs : List (BudgetCategory × ℚ))
    (hrows : (rows.map (·.category)).Nodup) (hallocs : (allocs.map Prod.fst).Nodup) :
    (∀ ca ∈ allocs,
      (∀ b, findCat rows ca.1 = some b →
        findCat (setBudgetAllocations rows allocs) ca.1 =
          some { category := ca.1, allocatedAmount := ca.2, spentAmount := b.spentAmount }) ∧
      (findCat rows ca.1 = none →
        findCat (setBudgetAllocations rows allocs) ca.1 =
          some { category := ca.1, allocatedAmount := ca.2, spentAmount := 0 })) ∧
    (∀ c, c ∉ allocs.map Prod.fst →
      findCat (setBudgetAllocations rows allocs) c = findCat rows c) ∧
    ((setBudgetAllocations rows allocs).map (·.category)).Nodup :=
  ⟨setBudget_lookup allocs rows hallocs,
   fun c hc => setBudget_frame allocs rows c hc,
   setBudget_nodup allocs rows hrows⟩

/-- Witness for C10: upserting FOOD ↦ 1000 and ACCOMMODATION ↦ 250 into
the demo rows overwrites FOOD's allocation keeping its spent 500, creates
ACCOMMODATION with spent 0, and leaves TRANSPORT untouched. -/
theorem set_budget_upsert_c10_witness :
    findCat (setBudgetAllocations demoBudgets [(.FOOD, 1000), (.ACCOMMODATION, 250)]) .FOOD =
      some { category := .FOOD, allocatedAmount := 1000, spentAmount := 500 } ∧
    findCat (setBudgetAllocations demoBudgets [(.FOOD, 1000), (.ACCOMMODATION, 250)])
        .ACCOMMODATION =
      some { category := .ACCOMMODATION, allocatedAmount := 250, spentAmount := 0 } ∧
    findCat (setBudgetAllocations demoBudgets [(.FOOD, 1000), (.ACCOMMODATION, 250)])
        .TRANSPORT = findCat demoBudgets .TRANSPORT := by
  have h := set_budget_upsert_c10 demoBudgets [(.FOOD, 1000), (.ACCOMMODATION, 250)]
    (by simp [demoBudgets]) (by simp)
  refine ⟨?_, ?_, ?_⟩
  · have hfood : findCat demoBudgets .FOOD =
        some { category := .FOOD, allocatedAmount := 400, spentAmount := 500 } := by
      simp [findCat, demoBudgets, List.find?_cons]
    have := (h.1 (.FOOD, 1000) (by simp)).1 _ hfood
    simpa using this
  · have hacc : findCat demoBudgets .ACCOMMODATION = none := by
      simp [findCat, demoBudgets, List.find?_cons]
    have := (h.1 (.ACCOMMODATION, 250) (by simp)).2 hacc
    simpa using this
  · exact h.2.1 .TRANSPORT (by simp)

end GlobeTrotter
